import Mathlib

/-!
Shallow embedding of the LC-3 virtual machine in `src/lc3.c` and proofs
about its fetch-decode-execute loop, opcode handlers, condition-flag
update rule, sign extension, keyboard MMIO and trap dispatch.

Machine words are modelled as `Nat` with an explicit `% 65536` wherever the
C code truncates an `int` back into a `uint16_t`.  The global arrays
`memory[65536]` and `reg[R_COUNT]` are modelled as total functions
`Nat → Nat`; the host's character streams become explicit `input` /
`output` lists, and `getchar()` with no input available (which blocks the
process forever) is modelled as a stall that leaves the machine unchanged.
A ghost field `acc` records every index used on the `memory` array, in
order, so that bounds and "no memory access" properties can be stated;
it influences nothing else.
-/

namespace LC3

/-- Size of the memory array: `#define MEMORY_MAX (1 << 16)`. -/
def MEMORY_MAX : Nat := 65536

/-- Memory-mapped keyboard status register, `MR_KBSR = 0xFE00`. -/
def MR_KBSR : Nat := 0xFE00

/-- Memory-mapped keyboard data register, `MR_KBDR = 0xFE02`. -/
def MR_KBDR : Nat := 0xFE02

/-- Register indices from the `R_R0 .. R_COUNT` enum. -/
def R_R0 : Nat := 0

/-- Register index of R7, the link register. -/
def R_R7 : Nat := 7

/-- Register index of the program counter. -/
def R_PC : Nat := 8

/-- Register index of the condition-flag register. -/
def R_COND : Nat := 9

/-- Condition flag `FL_POS = 1 << 0`. -/
def FL_POS : Nat := 1

/-- Condition flag `FL_ZRO = 1 << 1`. -/
def FL_ZRO : Nat := 2

/-- Condition flag `FL_NEG = 1 << 2`. -/
def FL_NEG : Nat := 4

/-- Pointwise update of a `Nat → Nat` array model (`f[i] = v`). -/
def updFn (f : Nat → Nat) (i v : Nat) : Nat → Nat :=
  fun j => if j = i then v else f j

/-- Machine state: the globals `memory` and `reg`, the host's pending input
characters and written output bytes, the run loop's `running` flag, and the
ghost trace `acc` of indices used on the `memory` array. -/
structure Machine where
  memory : Nat → Nat
  reg : Nat → Nat
  input : List Nat
  output : List Nat
  running : Bool
  acc : List Nat

/-- `check_key()`: non-blocking poll, true iff host input is pending. -/
def check_key (s : Machine) : Bool := !s.input.isEmpty

/-- `mem_read(address)`: reading `MR_KBSR` polls the keyboard; when input is
pending it latches `1 << 15` into `memory[MR_KBSR]` and the next character
into `memory[MR_KBDR]` (truncated to 16 bits by the `uint16_t` store),
otherwise it stores 0 into `memory[MR_KBSR]`; it then returns
`memory[address]`.  Every other address returns the stored cell. -/
def mem_read (s : Machine) (address : Nat) : Nat × Machine :=
  if address = MR_KBSR then
    match s.input with
    | c :: rest =>
        let mem1 := updFn (updFn s.memory MR_KBSR (1 <<< 15)) MR_KBDR (c % 65536)
        (mem1 address,
         { s with memory := mem1, input := rest,
                  acc := s.acc ++ [MR_KBSR, MR_KBDR, address] })
    | [] =>
        let mem1 := updFn s.memory MR_KBSR 0
        (mem1 address, { s with memory := mem1, acc := s.acc ++ [MR_KBSR, address] })
  else
    (s.memory address, { s with acc := s.acc ++ [address] })

/-- `mem_write(address, value)`: unconditional store, no address is
special-cased. -/
def mem_write (s : Machine) (address value : Nat) : Machine :=
  { s with memory := updFn s.memory address value, acc := s.acc ++ [address] }

/-- `reg[r] = v` as a state transformer. -/
def setReg (s : Machine) (r v : Nat) : Machine :=
  { s with reg := updFn s.reg r v }

/-- The flag value `update_flags` stores for a register value: `FL_ZRO` when
it is 0, `FL_NEG` when `reg[r] >> 15` is nonzero, `FL_POS` otherwise. -/
def flagOf (v : Nat) : Nat :=
  if v = 0 then FL_ZRO else if v >>> 15 ≠ 0 then FL_NEG else FL_POS

/-- `update_flags(r)`: replaces `reg[R_COND]` with the flag derived from
`reg[r]`. -/
def update_flags (s : Machine) (r : Nat) : Machine :=
  setReg s R_COND (flagOf (s.reg r))

/-- `sign_extend(x, bit_count)`: when bit `bit_count - 1` of `x` is set,
OR in `0xFFFF << bit_count`; the result is truncated to 16 bits by the
`uint16_t` return type. -/
def sign_extend (x : Nat) (bit_count : Nat) : Nat :=
  if (x >>> (bit_count - 1)) &&& 1 = 1 then
    (x ||| (0xFFFF <<< bit_count)) % 65536
  else
    x

/-- Destination-register field, `(instr >> 9) & 0x7`. -/
def drOf (instr : Nat) : Nat := (instr >>> 9) &&& 0x7

/-- First source-register / base-register field, `(instr >> 6) & 0x7`. -/
def sr1Of (instr : Nat) : Nat := (instr >>> 6) &&& 0x7

/-- Second source-register field, `instr & 0x7`. -/
def sr2Of (instr : Nat) : Nat := instr &&& 0x7

/-- `case OP_ADD`. -/
def execADD (m : Machine) (instr : Nat) : Machine :=
  let r0 := drOf instr
  let r1 := sr1Of instr
  let imm_flag := (instr >>> 5) &&& 0x1
  let m1 :=
    if imm_flag = 1 then
      let imm5 := sign_extend (instr &&& 0x1F) 5
      setReg m r0 ((m.reg r1 + imm5) % 65536)
    else
      let r2 := sr2Of instr
      setReg m r0 ((m.reg r1 + m.reg r2) % 65536)
  update_flags m1 r0

/-- `case OP_AND`. -/
def execAND (m : Machine) (instr : Nat) : Machine :=
  let r0 := drOf instr
  let r1 := sr1Of instr
  let imm_flag := (instr >>> 5) &&& 0x1
  let m1 :=
    if imm_flag = 1 then
      let imm5 := sign_extend (instr &&& 0x1F) 5
      setReg m r0 ((m.reg r1 &&& imm5) % 65536)
    else
      let r2 := sr2Of instr
      setReg m r0 ((m.reg r1 &&& m.reg r2) % 65536)
  update_flags m1 r0

/-- `case OP_NOT`: `reg[r0] = ~reg[r1]`, the `int` complement truncated to
16 bits, i.e. XOR with `0xFFFF` for a 16-bit operand. -/
def execNOT (m : Machine) (instr : Nat) : Machine :=
  let r0 := drOf instr
  let r1 := sr1Of instr
  update_flags (setReg m r0 ((m.reg r1 ^^^ 0xFFFF) % 65536)) r0

/-- `case OP_BR`: `cond_flag = instr >> 9` (the opcode bits are zero for BR),
branch taken when `cond_flag & reg[R_COND]` is nonzero. -/
def execBR (m : Machine) (instr : Nat) : Machine :=
  let cond_flag := instr >>> 9
  let pc_offset := sign_extend (instr &&& 0x1FF) 9
  if cond_flag &&& m.reg R_COND ≠ 0 then
    setReg m R_PC ((m.reg R_PC + pc_offset) % 65536)
  else
    m

/-- `case OP_JMP`: `reg[R_PC] = reg[r1]`. -/
def execJMP (m : Machine) (instr : Nat) : Machine :=
  setReg m R_PC (m.reg (sr1Of instr))

/-- `case OP_JSR`: link into R7, then long-offset or base-register jump. -/
def execJSR (m : Machine) (instr : Nat) : Machine :=
  let m1 := setReg m R_R7 (m.reg R_PC)
  let flag := (instr >>> 11) &&& 0x1
  if flag = 1 then
    let pc_offset := sign_extend (instr &&& 0x7FF) 11
    setReg m1 R_PC ((m1.reg R_PC + pc_offset) % 65536)
  else
    setReg m1 R_PC (m1.reg (sr1Of instr))

/-- `case OP_LD`: `reg[r0] = mem_read(reg[R_PC] + pc_offset)`. -/
def execLD (m : Machine) (instr : Nat) : Machine :=
  let r0 := drOf instr
  let pc_offset := sign_extend (instr &&& 0x1FF) 9
  let rd := mem_read m ((m.reg R_PC + pc_offset) % 65536)
  update_flags (setReg rd.2 r0 rd.1) r0

/-- `case OP_LDI`: `reg[r0] = mem_read(mem_read(reg[R_PC] + pc_offset))`. -/
def execLDI (m : Machine) (instr : Nat) : Machine :=
  let r0 := drOf instr
  let pc_offset := sign_extend (instr &&& 0x1FF) 9
  let rd1 := mem_read m ((m.reg R_PC + pc_offset) % 65536)
  let rd2 := mem_read rd1.2 rd1.1
  update_flags (setReg rd2.2 r0 rd2.1) r0

/-- `case OP_LDR`: `reg[r0] = mem_read(reg[r1] + offset)`. -/
def execLDR (m : Machine) (instr : Nat) : Machine :=
  let r0 := drOf instr
  let r1 := sr1Of instr
  let offset := sign_extend (instr &&& 0x3F) 6
  let rd := mem_read m ((m.reg r1 + offset) % 65536)
  update_flags (setReg rd.2 r0 rd.1) r0

/-- `case OP_LEA` as the C source writes it:
`reg[r0] = mem_read(reg[R_PC] + pc_offset)` — a memory read, identical to
the LD case, not the address-only computation of the LC-3 ISA. -/
def execLEA (m : Machine) (instr : Nat) : Machine :=
  let r0 := drOf instr
  let pc_offset := sign_extend (instr &&& 0x1FF) 9
  let rd := mem_read m ((m.reg R_PC + pc_offset) % 65536)
  update_flags (setReg rd.2 r0 rd.1) r0

/-- `case OP_ST`: `mem_write(reg[R_PC] + pc_offset, reg[r0])`. -/
def execST (m : Machine) (instr : Nat) : Machine :=
  let r0 := drOf instr
  let pc_offset := sign_extend (instr &&& 0x1FF) 9
  mem_write m ((m.reg R_PC + pc_offset) % 65536) (m.reg r0)

/-- `case OP_STI`: `mem_write(mem_read(reg[R_PC] + pc_offset), reg[r0])`. -/
def execSTI (m : Machine) (instr : Nat) : Machine :=
  let r0 := drOf instr
  let pc_offset := sign_extend (instr &&& 0x1FF) 9
  let rd := mem_read m ((m.reg R_PC + pc_offset) % 65536)
  mem_write rd.2 rd.1 (rd.2.reg r0)

/-- `case OP_STR`: `mem_write(reg[r1] + offset, reg[r0])`. -/
def execSTR (m : Machine) (instr : Nat) : Machine :=
  let r0 := drOf instr
  let r1 := sr1Of instr
  let offset := sign_extend (instr &&& 0x3F) 6
  mem_write m ((m.reg r1 + offset) % 65536) (m.reg r0)

/-- `case TRAP_GETC`: `reg[R_R0] = (uint16_t)getchar(); update_flags(R_R0)`.
With no input pending `getchar()` blocks forever; modelled as a stall. -/
def trapGETC (m : Machine) : Machine :=
  match m.input with
  | c :: rest => update_flags (setReg { m with input := rest } R_R0 (c % 65536)) R_R0
  | [] => m

/-- `case TRAP_OUT`: `putc((char)reg[R_R0], stdout)` writes the low byte of
R0 to the output stream. -/
def trapOUT (m : Machine) : Machine :=
  { m with output := m.output ++ [m.reg R_R0 % 256] }

/-- The `while (*c) { putc((char)*c, stdout); ++c; }` walk of `TRAP_PUTS`,
starting at array index `a`.  `fuel` is the number of cells from `a` to the
end of the 65536-cell array; when it runs out the next C access
`memory[a]` is past the array bound, so the walk records that index and
stops (the C behaviour past this point is undefined).  Returns the bytes
written and the list of memory indices read. -/
def puts_loop (memory : Nat → Nat) (a fuel : Nat) : List Nat × List Nat :=
  match fuel with
  | 0 => ([], [a])
  | f + 1 =>
      if memory a = 0 then ([], [a])
      else
        let rest := puts_loop memory (a + 1) f
        ((memory a % 256) :: rest.1, a :: rest.2)

/-- `case TRAP_PUTS`: walk from `memory + reg[R_R0]`, one low byte per word,
until a zero word. -/
def trapPUTS (m : Machine) : Machine :=
  let r := puts_loop m.memory (m.reg R_R0) (MEMORY_MAX - m.reg R_R0)
  { m with output := m.output ++ r.1, acc := m.acc ++ r.2 }

/-- Output bytes of the `printf("Enter a character: ")` prompt of
`TRAP_IN`. -/
def promptChars : List Nat := "Enter a character: ".toList.map Char.toNat

/-- `case TRAP_IN`: prompt, read one character, echo it, store it in R0 and
update the flags.  As in `trapGETC`, an empty input stream blocks and is
modelled as a stall.  (`char` truncation keeps the low byte; input
characters are byte codes.) -/
def trapIN (m : Machine) : Machine :=
  match m.input with
  | c :: rest =>
      let m1 := { m with input := rest, output := m.output ++ promptChars ++ [c % 256] }
      update_flags (setReg m1 R_R0 (c % 256)) R_R0
  | [] => { m with output := m.output ++ promptChars }

/-- The `while (*c)` walk of `TRAP_PUTSP`: per nonzero word write the low
byte, then the high byte when it is nonzero.  Fuel and the read trace as in
`puts_loop`. -/
def putsp_loop (memory : Nat → Nat) (a fuel : Nat) : List Nat × List Nat :=
  match fuel with
  | 0 => ([], [a])
  | f + 1 =>
      if memory a = 0 then ([], [a])
      else
        let char1 := memory a &&& 0xFF
        let char2 := (memory a >>> 8) % 256
        let rest := putsp_loop memory (a + 1) f
        ((char1 :: (if char2 ≠ 0 then [char2] else [])) ++ rest.1, a :: rest.2)

/-- `case TRAP_PUTSP`. -/
def trapPUTSP (m : Machine) : Machine :=
  let r := putsp_loop m.memory (m.reg R_R0) (MEMORY_MAX - m.reg R_R0)
  { m with output := m.output ++ r.1, acc := m.acc ++ r.2 }

/-- Output bytes of `puts("HALT")` (the string plus the trailing
newline). -/
def haltChars : List Nat := ("HALT".toList.map Char.toNat) ++ [10]

/-- `case TRAP_HALT`: print HALT and clear the `running` flag. -/
def trapHALT (m : Machine) : Machine :=
  { m with output := m.output ++ haltChars, running := false }

/-- `case OP_TRAP`: `reg[R_R7] = reg[R_PC]`, then the inner switch on
`instr & 0xFF`.  The inner switch has no default case, so an unknown vector
falls out of the switch with only R7 written. -/
def execTRAP (m : Machine) (instr : Nat) : Machine :=
  let m1 := setReg m R_R7 (m.reg R_PC)
  let v := instr &&& 0xFF
  if v = 0x20 then trapGETC m1
  else if v = 0x21 then trapOUT m1
  else if v = 0x22 then trapPUTS m1
  else if v = 0x23 then trapIN m1
  else if v = 0x24 then trapPUTSP m1
  else if v = 0x25 then trapHALT m1
  else m1

/-- Result of one iteration of the run loop: either the next machine state,
or the state at the moment `abort()` tears the process down (OP_RES, OP_RTI
and the unreachable default case of the opcode switch). -/
inductive StepResult where
  | ok : Machine → StepResult
  | aborted : Machine → StepResult

/-- The opcode switch of the run loop, on an already fetched instruction
with the PC already advanced. -/
def execInstr (m : Machine) (instr : Nat) : StepResult :=
  let opcode := instr >>> 12
  if opcode = 0 then .ok (execBR m instr)
  else if opcode = 1 then .ok (execADD m instr)
  else if opcode = 2 then .ok (execLD m instr)
  else if opcode = 3 then .ok (execST m instr)
  else if opcode = 4 then .ok (execJSR m instr)
  else if opcode = 5 then .ok (execAND m instr)
  else if opcode = 6 then .ok (execLDR m instr)
  else if opcode = 7 then .ok (execSTR m instr)
  else if opcode = 8 then .aborted m
  else if opcode = 9 then .ok (execNOT m instr)
  else if opcode = 10 then .ok (execLDI m instr)
  else if opcode = 11 then .ok (execSTI m instr)
  else if opcode = 12 then .ok (execJMP m instr)
  else if opcode = 13 then .aborted m
  else if opcode = 14 then .ok (execLEA m instr)
  else if opcode = 15 then .ok (execTRAP m instr)
  else .aborted m

/-- One iteration of the run loop:
`uint16_t instr = mem_read(reg[R_PC]++);` then the opcode switch. -/
def step (s : Machine) : StepResult :=
  let fr := mem_read s (s.reg R_PC)
  let s1 := setReg fr.2 R_PC ((fr.2.reg R_PC + 1) % 65536)
  execInstr s1 fr.1

/-- The instruction word the next iteration fetches. -/
def fetched (s : Machine) : Nat := (mem_read s (s.reg R_PC)).1

/-- Register file of a step result (observation helper). -/
def regOf : StepResult → Nat → Nat
  | .ok m, r => m.reg r
  | .aborted m, r => m.reg r

/-- Memory of a step result (observation helper). -/
def memOf : StepResult → Nat → Nat
  | .ok m, a => m.memory a
  | .aborted m, a => m.memory a

/-- Running flag of a step result (observation helper). -/
def runningOf : StepResult → Bool
  | .ok m => m.running
  | .aborted m => m.running

/-- Output stream of a step result (observation helper). -/
def outputOf : StepResult → List Nat
  | .ok m => m.output
  | .aborted m => m.output

/-- Input stream of a step result (observation helper). -/
def inputOf : StepResult → List Nat
  | .ok m => m.input
  | .aborted m => m.input

/-- Memory-index trace of a step result (observation helper). -/
def accOf : StepResult → List Nat
  | .ok m => m.acc
  | .aborted m => m.acc

/-- True on the `abort()` outcome (observation helper). -/
def isAborted : StepResult → Bool
  | .ok _ => false
  | .aborted _ => true

/-- All memory cells and registers hold 16-bit values, as the `uint16_t`
array types guarantee in C. -/
def Wf (s : Machine) : Prop :=
  (∀ a, s.memory a < 65536) ∧ (∀ r, s.reg r < 65536)

/-- Association-list backed array model for concrete machines: the value
paired with the first matching key, default 0. -/
def lookupD (l : List (Nat × Nat)) : Nat → Nat :=
  fun a => (((l.find? (fun p => p.1 = a)).map Prod.snd).getD 0)

/-- Concrete machine for C1: `LEA R0, #2` (0xE002) at the start address,
and 0x1234 stored at the effective address 0x3003. -/
def c1machine : Machine :=
  { memory := lookupD [(0x3000, 0xE002), (0x3003, 0x1234)]
    reg := lookupD [(8, 0x3000)]
    input := []
    output := []
    running := true
    acc := [] }

/-- Concrete machine for C2's counterexample: COND holds `FL_NEG` and one
host character (code 65) is pending. -/
def c2machine : Machine :=
  { memory := lookupD []
    reg := lookupD [(9, FL_NEG)]
    input := [65]
    output := []
    running := true
    acc := [] }

/-- Concrete machine for C10's witness. -/
def c10machine : Machine :=
  { memory := lookupD []
    reg := lookupD [(8, 0x3001), (9, FL_ZRO)]
    input := []
    output := []
    running := true
    acc := [] }

/-- Concrete machine for C3's witness: R1 holds 5, for the spec's example
`ADD R0, R1, #-3` (0x107D). -/
def c3machine : Machine :=
  { memory := lookupD []
    reg := lookupD [(1, 5)]
    input := []
    output := []
    running := true
    acc := [] }

/-- Concrete machine for C6: the words 'H', 'i', 0 at R0 = 0xFFF0 (high
addresses keep the walk's fuel small so kernel evaluation is cheap). -/
def c6machine : Machine :=
  { memory := lookupD [(0xFFF0, 72), (0xFFF1, 105)]
    reg := lookupD [(0, 0xFFF0)]
    input := []
    output := []
    running := true
    acc := [] }

/-- Concrete machine for C7's witness: `TRAP 0x25` (HALT) at the start
address. -/
def c7machine : Machine :=
  { memory := lookupD [(0x3000, 0xF025)]
    reg := lookupD [(8, 0x3000)]
    input := []
    output := []
    running := true
    acc := [] }

/-- Concrete machine for C8's witness: `LD R0, #2` (0x2002) at the start
address, 0x4242 at the effective address 0x3003. -/
def c8machine : Machine :=
  { memory := lookupD [(0x3000, 0x2002), (0x3003, 0x4242)]
    reg := lookupD [(8, 0x3000)]
    input := []
    output := []
    running := true
    acc := [] }

/-- Concrete machine for C9's counterexample: `TRAP 0x22` (PUTS) with
R0 = 0xFFFF and no zero-valued word at or after R0, so the walk runs off
the end of the 65536-word array. -/
def c9machine : Machine :=
  { memory := lookupD [(0x3000, 0xF022), (0xFFFF, 1)]
    reg := lookupD [(8, 0x3000), (0, 0xFFFF)]
    input := []
    output := []
    running := true
    acc := [] }

/-- Concrete machine for C9's witness: `TRAP 0x22` (PUTS) with a
zero-terminated string at R0 = 0xFFF0. -/
def c9wmachine : Machine :=
  { memory := lookupD [(0x3000, 0xF022), (0xFFF0, 72), (0xFFF1, 105)]
    reg := lookupD [(8, 0x3000), (0, 0xFFF0)]
    input := []
    output := []
    running := true
    acc := [] }

section ProjectionLemmas

variable (s : Machine) (a v r : Nat)

@[simp] lemma setReg_memory : (setReg s r v).memory = s.memory := rfl

@[simp] lemma setReg_input : (setReg s r v).input = s.input := rfl

@[simp] lemma setReg_output : (setReg s r v).output = s.output := rfl

@[simp] lemma setReg_running : (setReg s r v).running = s.running := rfl

@[simp] lemma setReg_acc : (setReg s r v).acc = s.acc := rfl

@[simp] lemma setReg_reg : (setReg s r v).reg = updFn s.reg r v := rfl

@[simp] lemma update_flags_memory : (update_flags s r).memory = s.memory := rfl

@[simp] lemma update_flags_input : (update_flags s r).input = s.input := rfl

@[simp] lemma update_flags_output : (update_flags s r).output = s.output := rfl

@[simp] lemma update_flags_running : (update_flags s r).running = s.running := rfl

@[simp] lemma update_flags_acc : (update_flags s r).acc = s.acc := rfl

@[simp] lemma update_flags_reg :
    (update_flags s r).reg = updFn s.reg R_COND (flagOf (s.reg r)) := rfl

@[simp] lemma mem_write_reg : (mem_write s a v).reg = s.reg := rfl

@[simp] lemma mem_write_memory : (mem_write s a v).memory = updFn s.memory a v := rfl

@[simp] lemma mem_write_input : (mem_write s a v).input = s.input := rfl

@[simp] lemma mem_write_output : (mem_write s a v).output = s.output := rfl

@[simp] lemma mem_write_running : (mem_write s a v).running = s.running := rfl

@[simp] lemma mem_write_acc : (mem_write s a v).acc = s.acc ++ [a] := rfl

@[simp] lemma mem_read_reg : (mem_read s a).2.reg = s.reg := by
  unfold mem_read
  split
  · split <;> rfl
  · rfl

@[simp] lemma mem_read_running : (mem_read s a).2.running = s.running := by
  unfold mem_read
  split
  · split <;> rfl
  · rfl

@[simp] lemma mem_read_output : (mem_read s a).2.output = s.output := by
  unfold mem_read
  split
  · split <;> rfl
  · rfl

lemma mem_read_of_ne (h : a ≠ MR_KBSR) :
    (mem_read s a).1 = s.memory a
    ∧ (mem_read s a).2.memory = s.memory
    ∧ (mem_read s a).2.input = s.input
    ∧ (mem_read s a).2.acc = s.acc ++ [a] := by
  simp [mem_read, h]

lemma mem_read_fst_lt (hm : ∀ x, s.memory x < 65536) : (mem_read s a).1 < 65536 := by
  unfold mem_read
  split
  · split
    · simp only [updFn]
      split_ifs <;> first | omega | exact hm _ | simp
    · simp only [updFn]
      split_ifs <;> first | omega | exact hm _
  · exact hm a

lemma mem_read_memory_lt (hm : ∀ x, s.memory x < 65536) :
    ∀ x, (mem_read s a).2.memory x < 65536 := by
  intro x
  unfold mem_read
  split
  · split
    · simp only [updFn]
      split_ifs <;> first | omega | exact hm _ | simp
    · simp only [updFn]
      split_ifs <;> first | omega | exact hm _
  · exact hm x

lemma mem_read_acc_mem :
    ∀ x ∈ (mem_read s a).2.acc, x ∈ s.acc ∨ x = a ∨ x < 65536 := by
  intro x
  unfold mem_read
  split
  · split <;>
    · simp only [List.mem_append, List.mem_cons, List.mem_singleton]
      rintro (h | h) <;> simp_all [MR_KBSR, MR_KBDR] <;> omega
  · simp only [List.mem_append, List.mem_singleton]
    rintro (h | h) <;> simp_all

end ProjectionLemmas

lemma flagOf_cases (v : Nat) : flagOf v = FL_POS ∨ flagOf v = FL_ZRO ∨ flagOf v = FL_NEG := by
  unfold flagOf
  split_ifs <;> simp

lemma flagOf_eq_testBit (v : Nat) (hv : v < 65536) :
    flagOf v = if v = 0 then FL_ZRO else if Nat.testBit v 15 then FL_NEG else FL_POS := by
  unfold flagOf
  have h1 : v >>> 15 = v / 2 ^ 15 := Nat.shiftRight_eq_div_pow v 15
  have h2 : Nat.testBit v 15 = decide (v / 2 ^ 15 % 2 = 1) := Nat.testBit_to_div_mod
  have h3 : v / 2 ^ 15 ≤ 1 := by norm_num; omega
  rw [h1, h2]
  split_ifs with hz hb hd hd <;> first
    | rfl
    | (exfalso; simp only [decide_eq_true_eq] at *; omega)

lemma drOf_lt (i : Nat) : drOf i < 8 := by
  have h : (i >>> 9) &&& 7 ≤ 7 := Nat.and_le_right
  simpa [drOf] using Nat.lt_succ_of_le h

lemma sr1Of_lt (i : Nat) : sr1Of i < 8 := by
  have h : (i >>> 6) &&& 7 ≤ 7 := Nat.and_le_right
  simpa [sr1Of] using Nat.lt_succ_of_le h

lemma sr2Of_lt (i : Nat) : sr2Of i < 8 := by
  have h : i &&& 7 ≤ 7 := Nat.and_le_right
  simpa [sr2Of] using Nat.lt_succ_of_le h

lemma drOf_ne_cond (i : Nat) : drOf i ≠ R_COND := by
  have := drOf_lt i
  simp only [R_COND]
  omega

/-- After `update_flags(r)` with `r` not the flag register itself, COND holds
the flag of the value in `r`. -/
lemma update_flags_cond_self (m : Machine) (r : Nat) (hr : r ≠ R_COND) :
    (update_flags m r).reg R_COND = flagOf ((update_flags m r).reg r) := by
  simp [update_flags, setReg, updFn, hr]

/-- C4: for every 16-bit field value and every width in {5, 6, 9, 11},
`sign_extend(field, width)` returns `field OR (0xFFFF << width)` modulo
2^16 when bit `width - 1` of the field is 1 and returns the field unchanged
otherwise; in particular `sign_extend(0x1F, 5) = 0xFFFF` and
`sign_extend(0x0F, 5) = 0x000F`. -/
theorem c4_sign_extend (x w : Nat) (hx : x < 65536)
    (hw : w = 5 ∨ w = 6 ∨ w = 9 ∨ w = 11) :
    (Nat.testBit x (w - 1) = true →
        sign_extend x w = (x ||| (0xFFFF <<< w)) % 65536)
    ∧ (Nat.testBit x (w - 1) = false → sign_extend x w = x)
    ∧ sign_extend 0x1F 5 = 0xFFFF ∧ sign_extend 0x0F 5 = 0x0F := by
  have hbit : ∀ i, ((x >>> i) &&& 1 = 1) ↔ Nat.testBit x i = true := by
    intro i
    simp [Nat.testBit_to_div_mod, Nat.and_one_is_mod, Nat.shiftRight_eq_div_pow]
  refine ⟨?_, ?_, by decide, by decide⟩
  · intro ht
    rw [sign_extend, if_pos ((hbit _).mpr ht)]
  · intro hf
    rw [sign_extend, if_neg]
    intro hc
    rw [(hbit _).mp hc] at hf
    exact Bool.noConfusion hf

/-- Witness for C4 at the concrete field 0x1F with width 5. -/
theorem c4_sign_extend_witness :
    (Nat.testBit 0x1F (5 - 1) = true →
        sign_extend 0x1F 5 = (0x1F ||| (0xFFFF <<< 5)) % 65536)
    ∧ (Nat.testBit 0x1F (5 - 1) = false → sign_extend 0x1F 5 = 0x1F)
    ∧ sign_extend 0x1F 5 = 0xFFFF ∧ sign_extend 0x0F 5 = 0x0F :=
  c4_sign_extend 0x1F 5 (by decide) (Or.inl rfl)

/-- C1, evaluated at the failing input: the claim (and the spec) say LEA is
an address computation only, `DR = PC + sign_extend(offset9, 9)` with no
memory read, which here would set R0 to 0x3003.  The code instead executes
`reg[r0] = mem_read(reg[R_PC] + pc_offset)` (a copy of the LD case), so R0
receives the memory cell 0x1234 at address 0x3003, and the memory array is
read at 0x3003. -/
theorem c1_lea_reads_memory :
    regOf (step c1machine) R_R0 = 0x1234
    ∧ regOf (step c1machine) R_R0 ≠ (0x3001 + 2) % 65536
    ∧ 0x3003 ∈ accOf (step c1machine)
    ∧ c1machine.memory 0x3003 = 0x1234
    ∧ fetched c1machine >>> 12 = 14 := by decide

/-- C2 counterexample: executing TRAP with vector 0x20 (GETC) rewrites the
condition-flag register (from `FL_NEG` to `FL_POS` here), contradicting the
claim that COND is left unchanged by every execution of TRAP for every trap
vector. -/
theorem c2_counterexample :
    c2machine.reg R_COND = FL_NEG
    ∧ regOf (execInstr c2machine 0xF020) R_COND = FL_POS
    ∧ 0xF020 >>> 12 = 15 ∧ 0xF020 &&& 0xFF = 0x20 := by decide

/-- C5: with no pending host input, two consecutive reads of address 0xFE00
both yield 0 and leave cell 0xFE02 unchanged; with input pending, the next
read of 0xFE00 yields a value with bit 15 set and afterwards cell 0xFE02
holds the pending character's code; reads of every other address return the
stored cell and modify neither memory nor the input stream. -/
theorem c5_keyboard (s : Machine) :
    (s.input = [] →
      (mem_read s MR_KBSR).1 = 0
      ∧ (mem_read (mem_read s MR_KBSR).2 MR_KBSR).1 = 0
      ∧ (mem_read s MR_KBSR).2.memory MR_KBDR = s.memory MR_KBDR
      ∧ (mem_read (mem_read s MR_KBSR).2 MR_KBSR).2.memory MR_KBDR
          = s.memory MR_KBDR)
    ∧ (∀ c rest, s.input = c :: rest →
      Nat.testBit (mem_read s MR_KBSR).1 15 = true
      ∧ (mem_read s MR_KBSR).2.memory MR_KBDR = c % 65536
      ∧ (c < 65536 → (mem_read s MR_KBSR).2.memory MR_KBDR = c))
    ∧ (∀ a, a ≠ MR_KBSR →
      (mem_read s a).1 = s.memory a
      ∧ (mem_read s a).2.memory = s.memory
      ∧ (mem_read s a).2.input = s.input) := by
  refine ⟨?_, ?_, ?_⟩
  · intro h
    simp [mem_read, MR_KBSR, MR_KBDR, h, updFn]
  · intro c rest h
    simp [mem_read, MR_KBSR, MR_KBDR, h, updFn]
    decide
  · intro a ha
    simp [mem_read, ha]

/-- C10: executing TRAP with any vector outside 0x20..0x25 falls through
the inner switch (which has no default case): R7 is set to the current,
already advanced PC and nothing else changes — no abort, registers other
than R7, memory, the running flag and both streams are untouched, so the
run loop continues with the next fetch. -/
theorem c10_undefined_trap (m : Machine) (i : Nat) (hop : i >>> 12 = 15)
    (hv : i &&& 0xFF < 0x20 ∨ 0x25 < i &&& 0xFF) :
    isAborted (execInstr m i) = false
    ∧ regOf (execInstr m i) R_R7 = m.reg R_PC
    ∧ (∀ r, r ≠ R_R7 → regOf (execInstr m i) r = m.reg r)
    ∧ (∀ a, memOf (execInstr m i) a = m.memory a)
    ∧ runningOf (execInstr m i) = m.running
    ∧ outputOf (execInstr m i) = m.output
    ∧ inputOf (execInstr m i) = m.input := by
  have h0 : ¬(i &&& 0xFF = 0x20) := by omega
  have h1 : ¬(i &&& 0xFF = 0x21) := by omega
  have h2 : ¬(i &&& 0xFF = 0x22) := by omega
  have h3 : ¬(i &&& 0xFF = 0x23) := by omega
  have h4 : ¬(i &&& 0xFF = 0x24) := by omega
  have h5 : ¬(i &&& 0xFF = 0x25) := by omega
  have hred : execInstr m i = .ok (setReg m R_R7 (m.reg R_PC)) := by
    simp [execInstr, execTRAP, hop, h0, h1, h2, h3, h4, h5]
  rw [hred]
  refine ⟨rfl, by simp [regOf, updFn], ?_, fun a => rfl, rfl, rfl, rfl⟩
  intro r hr
  simp only [regOf, setReg_reg, updFn]
  rw [if_neg]
  exact fun hc => hr hc

/-- Witness for C10: TRAP vector 0x00 on a concrete machine. -/
theorem c10_undefined_trap_witness :
    isAborted (execInstr c10machine 0xF000) = false
    ∧ regOf (execInstr c10machine 0xF000) R_R7 = c10machine.reg R_PC
    ∧ (∀ r, r ≠ R_R7 → regOf (execInstr c10machine 0xF000) r = c10machine.reg r)
    ∧ (∀ a, memOf (execInstr c10machine 0xF000) a = c10machine.memory a)
    ∧ runningOf (execInstr c10machine 0xF000) = c10machine.running
    ∧ outputOf (execInstr c10machine 0xF000) = c10machine.output
    ∧ inputOf (execInstr c10machine 0xF000) = c10machine.input :=
  c10_undefined_trap c10machine 0xF000 (by decide) (Or.inl (by decide))


/-- Every cell of an association-list backed array is 16-bit when every
listed value is. -/
lemma lookupD_lt (l : List (Nat × Nat)) (h : ∀ p ∈ l, p.2 < 65536) (a : Nat) :
    lookupD l a < 65536 := by
  unfold lookupD
  cases hf : l.find? (fun p => p.1 = a) with
  | none => decide
  | some p => exact h p (List.mem_of_find?_eq_some hf)

lemma execST_cond (m : Machine) (i : Nat) :
    (execST m i).reg R_COND = m.reg R_COND := by
  unfold execST
  simp

lemma execSTI_cond (m : Machine) (i : Nat) :
    (execSTI m i).reg R_COND = m.reg R_COND := by
  unfold execSTI
  simp

lemma execSTR_cond (m : Machine) (i : Nat) :
    (execSTR m i).reg R_COND = m.reg R_COND := by
  unfold execSTR
  simp

lemma execBR_cond (m : Machine) (i : Nat) :
    (execBR m i).reg R_COND = m.reg R_COND := by
  unfold execBR
  simp only []
  split <;> simp [updFn, R_PC, R_COND]

lemma execJMP_cond (m : Machine) (i : Nat) :
    (execJMP m i).reg R_COND = m.reg R_COND := by
  unfold execJMP
  simp [updFn, R_PC, R_COND]

lemma execJSR_cond (m : Machine) (i : Nat) :
    (execJSR m i).reg R_COND = m.reg R_COND := by
  unfold execJSR
  simp only []
  split <;> simp [updFn, R_PC, R_R7, R_COND]

lemma execTRAP_cond (m : Machine) (i : Nat)
    (hv20 : i &&& 0xFF ≠ 0x20) (hv23 : i &&& 0xFF ≠ 0x23) :
    (execTRAP m i).reg R_COND = m.reg R_COND := by
  unfold execTRAP
  simp only []
  split_ifs <;> first
    | (exact absurd ‹_› hv20)
    | (exact absurd ‹_› hv23)
    | simp [trapOUT, trapPUTS, trapPUTSP, trapHALT, setReg, updFn, R_R7, R_COND]

lemma execTRAP_getc_cond (m : Machine) (i : Nat)
    (hv : i &&& 0xFF = 0x20 ∨ i &&& 0xFF = 0x23) (hin : m.input ≠ []) :
    (execTRAP m i).reg R_COND = flagOf ((execTRAP m i).reg R_R0) := by
  obtain ⟨c, rest, hcr⟩ : ∃ c rest, m.input = c :: rest := by
    cases hm : m.input with
    | nil => exact absurd hm hin
    | cons c rest => exact ⟨c, rest, rfl⟩
  have h09 : R_R0 ≠ R_COND := by decide
  rcases hv with hv | hv
  · have hne : ¬(i &&& 0xFF = 0x23) := by omega
    unfold execTRAP trapGETC
    simp only [hv, hne, reduceIte]
    rw [show (setReg m R_R7 (m.reg R_PC)).input = m.input from rfl, hcr]
    exact update_flags_cond_self _ _ h09
  · have hne : ¬(i &&& 0xFF = 0x20) := by omega
    unfold execTRAP trapIN
    simp only [hv, hne, reduceIte]
    rw [show (setReg m R_R7 (m.reg R_PC)).input = m.input from rfl, hcr]
    exact update_flags_cond_self _ _ h09

end LC3

namespace LC3

lemma execADD_dr_lt (m : Machine) (i : Nat) : (execADD m i).reg (drOf i) < 65536 := by
  have h9 := drOf_ne_cond i
  unfold execADD
  simp only []
  split <;> simp [update_flags, setReg, updFn, h9] <;> omega

lemma execAND_dr_lt (m : Machine) (i : Nat) : (execAND m i).reg (drOf i) < 65536 := by
  have h9 := drOf_ne_cond i
  unfold execAND
  simp only []
  split <;> simp [update_flags, setReg, updFn, h9] <;> omega

lemma execNOT_dr_lt (m : Machine) (i : Nat) : (execNOT m i).reg (drOf i) < 65536 := by
  have h9 := drOf_ne_cond i
  unfold execNOT
  simp [update_flags, setReg, updFn, h9]
  omega

lemma execLD_dr_lt (m : Machine) (i : Nat) (hm : ∀ x, m.memory x < 65536) :
    (execLD m i).reg (drOf i) < 65536 := by
  have h9 := drOf_ne_cond i
  unfold execLD
  simp [update_flags, setReg, updFn, h9]
  exact mem_read_fst_lt _ _ hm

lemma execLDI_dr_lt (m : Machine) (i : Nat) (hm : ∀ x, m.memory x < 65536) :
    (execLDI m i).reg (drOf i) < 65536 := by
  have h9 := drOf_ne_cond i
  unfold execLDI
  simp [update_flags, setReg, updFn, h9]
  exact mem_read_fst_lt _ _ (mem_read_memory_lt _ _ hm)

lemma execLDR_dr_lt (m : Machine) (i : Nat) (hm : ∀ x, m.memory x < 65536) :
    (execLDR m i).reg (drOf i) < 65536 := by
  have h9 := drOf_ne_cond i
  unfold execLDR
  simp [update_flags, setReg, updFn, h9]
  exact mem_read_fst_lt _ _ hm

lemma execLEA_dr_lt (m : Machine) (i : Nat) (hm : ∀ x, m.memory x < 65536) :
    (execLEA m i).reg (drOf i) < 65536 := by
  have h9 := drOf_ne_cond i
  unfold execLEA
  simp [update_flags, setReg, updFn, h9]
  exact mem_read_fst_lt _ _ hm

/-- C2 (amended): COND is rewritten — set to the flag of the value written
into the destination register — by every execution of ADD, AND, NOT, LD,
LDI, LDR and LEA; it is left unchanged by every execution of ST, STI, STR,
BR, JMP and JSR, and by TRAP for the vectors other than GETC (0x20) and
IN (0x23); TRAP GETC and TRAP IN rewrite COND from the character stored
into R0. -/
theorem c2_cond_update (m : Machine) (i : Nat) :
    ((i >>> 12 = 1 ∨ i >>> 12 = 5 ∨ i >>> 12 = 9 ∨ i >>> 12 = 2 ∨ i >>> 12 = 10
        ∨ i >>> 12 = 6 ∨ i >>> 12 = 14) →
      regOf (execInstr m i) R_COND = flagOf (regOf (execInstr m i) (drOf i)))
    ∧ ((i >>> 12 = 3 ∨ i >>> 12 = 11 ∨ i >>> 12 = 7 ∨ i >>> 12 = 0 ∨ i >>> 12 = 12
        ∨ i >>> 12 = 4) →
      regOf (execInstr m i) R_COND = m.reg R_COND)
    ∧ (i >>> 12 = 15 →
      ((i &&& 0xFF ≠ 0x20 ∧ i &&& 0xFF ≠ 0x23) →
        regOf (execInstr m i) R_COND = m.reg R_COND)
      ∧ ((i &&& 0xFF = 0x20 ∨ i &&& 0xFF = 0x23) → m.input ≠ [] →
        regOf (execInstr m i) R_COND = flagOf (regOf (execInstr m i) R_R0))) := by
  refine ⟨?_, ?_, ?_⟩
  · rintro (h | h | h | h | h | h | h) <;>
      simp [execInstr, h, regOf] <;>
      exact update_flags_cond_self _ _ (drOf_ne_cond i)
  · rintro (h | h | h | h | h | h) <;>
      simp [execInstr, h, regOf] <;>
      first
        | exact execST_cond m i
        | exact execSTI_cond m i
        | exact execSTR_cond m i
        | exact execBR_cond m i
        | exact execJMP_cond m i
        | exact execJSR_cond m i
  · intro h15
    constructor
    · rintro ⟨h20, h23⟩
      simp [execInstr, h15, regOf]
      exact execTRAP_cond m i h20 h23
    · intro hv hin
      simp [execInstr, h15, regOf]
      exact execTRAP_getc_cond m i hv hin

/-- C3: after executing any register-writing opcode (ADD, AND, NOT, LD,
LDI, LDR, LEA), COND holds exactly one of the three flags, and it matches
the signed interpretation of the value written: value 0 gives ZRO, a value
with bit 15 set gives NEG, every other value gives POS. -/
theorem c3_flag_invariant (m : Machine) (i : Nat) (hm : ∀ x, m.memory x < 65536)
    (hop : i >>> 12 = 1 ∨ i >>> 12 = 5 ∨ i >>> 12 = 9 ∨ i >>> 12 = 2
      ∨ i >>> 12 = 10 ∨ i >>> 12 = 6 ∨ i >>> 12 = 14) :
    regOf (execInstr m i) R_COND
      = (if regOf (execInstr m i) (drOf i) = 0 then FL_ZRO
         else if Nat.testBit (regOf (execInstr m i) (drOf i)) 15 then FL_NEG
         else FL_POS)
    ∧ (regOf (execInstr m i) R_COND = FL_POS ∨ regOf (execInstr m i) R_COND = FL_ZRO
       ∨ regOf (execInstr m i) R_COND = FL_NEG) := by
  have h9 := drOf_ne_cond i
  have hcond : regOf (execInstr m i) R_COND = flagOf (regOf (execInstr m i) (drOf i)) := by
    rcases hop with h | h | h | h | h | h | h <;>
      simp [execInstr, h, regOf] <;>
      exact update_flags_cond_self _ _ h9
  have hlt : regOf (execInstr m i) (drOf i) < 65536 := by
    rcases hop with h | h | h | h | h | h | h <;>
      simp [execInstr, h, regOf] <;>
      first
        | exact execADD_dr_lt m i
        | exact execAND_dr_lt m i
        | exact execNOT_dr_lt m i
        | exact execLD_dr_lt m i hm
        | exact execLDI_dr_lt m i hm
        | exact execLDR_dr_lt m i hm
        | exact execLEA_dr_lt m i hm
  exact ⟨hcond.trans (flagOf_eq_testBit _ hlt), hcond.symm ▸ flagOf_cases _⟩

/-- Witness for C3: the spec's example `ADD R0, R1, #-3` with R1 = 5 gives
R0 = 2 and COND = POS. -/
theorem c3_flag_invariant_witness :
    regOf (execInstr c3machine 0x107D) R_COND
      = (if regOf (execInstr c3machine 0x107D) (drOf 0x107D) = 0 then FL_ZRO
         else if Nat.testBit (regOf (execInstr c3machine 0x107D) (drOf 0x107D)) 15 then FL_NEG
         else FL_POS)
    ∧ (regOf (execInstr c3machine 0x107D) R_COND = FL_POS
       ∨ regOf (execInstr c3machine 0x107D) R_COND = FL_ZRO
       ∨ regOf (execInstr c3machine 0x107D) R_COND = FL_NEG) :=
  c3_flag_invariant c3machine 0x107D (fun x => lookupD_lt [] (by decide) x) (Or.inl rfl)


/-- The PUTS walk, when the first zero word is `n` cells after the start:
it writes the low byte of each of the `n` nonzero words and reads exactly
the cells from the start through the zero word. -/
lemma puts_loop_eq (memory : Nat → Nat) :
    ∀ (n a fuel : Nat), n < fuel →
      memory (a + n) = 0 →
      (∀ k, k < n → memory (a + k) ≠ 0) →
      puts_loop memory a fuel
        = ((List.range' a n).map (fun j => memory j % 256), List.range' a (n + 1)) := by
  intro n
  induction n with
  | zero =>
      intro a fuel hf hz _
      cases fuel with
      | zero => omega
      | succ f =>
          rw [puts_loop]
          simp only [Nat.add_zero] at hz
          simp [hz, List.range']
  | succ n ih =>
      intro a fuel hf hz hnz
      cases fuel with
      | zero => omega
      | succ f =>
          have h0 : memory a ≠ 0 := by
            have h := hnz 0 (Nat.succ_pos n)
            simpa using h
          have hz1 : memory (a + 1 + n) = 0 := by
            have he : a + 1 + n = a + (n + 1) := by omega
            rw [he]
            exact hz
          have hnz1 : ∀ k, k < n → memory (a + 1 + k) ≠ 0 := by
            intro k hk
            have he : a + 1 + k = a + (k + 1) := by omega
            rw [he]
            exact hnz (k + 1) (by omega)
          rw [puts_loop]
          simp only [h0, if_neg, reduceIte]
          rw [ih (a + 1) f (by omega) hz1 hnz1]
          simp [List.range'_succ]

/-- Every cell the PUTS walk reads is at or before any zero cell within
its fuel. -/
lemma puts_loop_acc_le (memory : Nat → Nat) :
    ∀ (fuel a z : Nat), a ≤ z → z < a + fuel → memory z = 0 →
      ∀ x ∈ (puts_loop memory a fuel).2, x ≤ z := by
  intro fuel
  induction fuel with
  | zero =>
      intro a z h1 h2 h3 x hx
      omega
  | succ f ih =>
      intro a z h1 h2 h3 x hx
      rw [puts_loop] at hx
      by_cases h0 : memory a = 0
      · simp [h0] at hx
        omega
      · simp only [h0, if_neg, reduceIte, List.mem_cons] at hx
        rcases hx with hx | hx
        · omega
        · have haz : a ≠ z := fun he => h0 (he ▸ h3)
          exact ih (a + 1) z (by omega) (by omega) h3 x hx

/-- Every cell the PUTSP walk reads is at or before any zero cell within
its fuel. -/
lemma putsp_loop_acc_le (memory : Nat → Nat) :
    ∀ (fuel a z : Nat), a ≤ z → z < a + fuel → memory z = 0 →
      ∀ x ∈ (putsp_loop memory a fuel).2, x ≤ z := by
  intro fuel
  induction fuel with
  | zero =>
      intro a z h1 h2 h3 x hx
      omega
  | succ f ih =>
      intro a z h1 h2 h3 x hx
      rw [putsp_loop] at hx
      by_cases h0 : memory a = 0
      · simp [h0] at hx
        omega
      · simp only [h0, if_neg, reduceIte, List.mem_cons] at hx
        rcases hx with hx | hx
        · omega
        · have haz : a ≠ z := fun he => h0 (he ▸ h3)
          exact ih (a + 1) z (by omega) (by omega) h3 x hx

/-- C6 (amended): when the first zero-valued word at or after address R0
is `n` cells in (within the 65536-word memory), the PUTS trap writes to the
output stream exactly the low byte of each of the `n` words before it (one
character per word), reads exactly the cells from R0 through the zero word
— in particular no cell strictly past it — and terminates. -/
theorem c6_puts (s : Machine) (n : Nat)
    (hz : s.memory (s.reg R_R0 + n) = 0)
    (hlt : s.reg R_R0 + n < 65536)
    (hnz : ∀ k, k < n → s.memory (s.reg R_R0 + k) ≠ 0) :
    (trapPUTS s).output
      = s.output ++ (List.range' (s.reg R_R0) n).map (fun j => s.memory j % 256)
    ∧ (trapPUTS s).acc = s.acc ++ List.range' (s.reg R_R0) (n + 1)
    ∧ (∀ a ∈ (trapPUTS s).acc, a ∈ s.acc ∨ a ≤ s.reg R_R0 + n) := by
  have heq := puts_loop_eq s.memory n (s.reg R_R0) (MEMORY_MAX - s.reg R_R0)
      (by unfold MEMORY_MAX; omega) hz hnz
  unfold trapPUTS
  rw [heq]
  refine ⟨rfl, rfl, ?_⟩
  intro a ha
  simp only [List.mem_append, List.mem_range'_1] at ha
  rcases ha with ha | ha
  · exact Or.inl ha
  · right
    omega

/-- C6 counterexample: with 'H', 'i', 0 stored from R0 = 0xFFF0 the walk
outputs "Hi" but its read trace contains 0xFFF2, the address of the first
zero-valued word (the `while (*c)` test reads the terminator cell), so the
claim that no cell at or past the zero word is read is false. -/
theorem c6_counterexample :
    c6machine.reg R_R0 = 0xFFF0
    ∧ c6machine.memory 0xFFF0 = 72 ∧ c6machine.memory 0xFFF1 = 105
    ∧ c6machine.memory 0xFFF2 = 0
    ∧ (trapPUTS c6machine).output = [72, 105]
    ∧ 0xFFF2 ∈ (trapPUTS c6machine).acc := by decide

/-- Witness for C6 at the concrete machine, with the zero word 2 cells
after R0. -/
theorem c6_puts_witness :
    (trapPUTS c6machine).output
      = c6machine.output
        ++ (List.range' (c6machine.reg R_R0) 2).map (fun j => c6machine.memory j % 256)
    ∧ (trapPUTS c6machine).acc = c6machine.acc ++ List.range' (c6machine.reg R_R0) (2 + 1)
    ∧ (∀ a ∈ (trapPUTS c6machine).acc, a ∈ c6machine.acc ∨ a ≤ c6machine.reg R_R0 + 2) :=
  c6_puts c6machine 2 (by decide) (by decide)
    (by intro k hk; interval_cases k <;> decide)


lemma execADD_running (m : Machine) (i : Nat) : (execADD m i).running = m.running := by
  unfold execADD
  simp only []
  split <;> rfl

lemma execAND_running (m : Machine) (i : Nat) : (execAND m i).running = m.running := by
  unfold execAND
  simp only []
  split <;> rfl

lemma execNOT_running (m : Machine) (i : Nat) : (execNOT m i).running = m.running := rfl

lemma execBR_running (m : Machine) (i : Nat) : (execBR m i).running = m.running := by
  unfold execBR
  simp only []
  split <;> rfl

lemma execJMP_running (m : Machine) (i : Nat) : (execJMP m i).running = m.running := rfl

lemma execJSR_running (m : Machine) (i : Nat) : (execJSR m i).running = m.running := by
  unfold execJSR
  simp only []
  split <;> rfl

lemma execLD_running (m : Machine) (i : Nat) : (execLD m i).running = m.running := by
  unfold execLD
  simp

lemma execLDI_running (m : Machine) (i : Nat) : (execLDI m i).running = m.running := by
  unfold execLDI
  simp

lemma execLDR_running (m : Machine) (i : Nat) : (execLDR m i).running = m.running := by
  unfold execLDR
  simp

lemma execLEA_running (m : Machine) (i : Nat) : (execLEA m i).running = m.running := by
  unfold execLEA
  simp

lemma execST_running (m : Machine) (i : Nat) : (execST m i).running = m.running := by
  unfold execST
  simp

lemma execSTI_running (m : Machine) (i : Nat) : (execSTI m i).running = m.running := by
  unfold execSTI
  simp

lemma execSTR_running (m : Machine) (i : Nat) : (execSTR m i).running = m.running := by
  unfold execSTR
  simp

lemma trapGETC_running (m : Machine) : (trapGETC m).running = m.running := by
  unfold trapGETC
  split <;> rfl

lemma trapIN_running (m : Machine) : (trapIN m).running = m.running := by
  unfold trapIN
  split <;> rfl

lemma execTRAP_running (m : Machine) (i : Nat) :
    (execTRAP m i).running = if i &&& 0xFF = 0x25 then false else m.running := by
  unfold execTRAP
  simp only []
  split_ifs <;> first
    | omega
    | rfl
    | simp [trapGETC_running, trapIN_running, trapOUT, trapPUTS, trapPUTSP, trapHALT]

/-- C7: with the machine well-formed and running, one iteration of the run
loop clears the running flag exactly when the fetched instruction is TRAP
with vector 0x25 (HALT) and never otherwise; the iteration ends in
`abort()` exactly for the RES (13) and RTI (8) opcodes, and that abort
leaves the running flag still set (the process dies abnormally, the flag
is never cleared). -/
theorem c7_halt (s : Machine) (hwf : Wf s) (hrun : s.running = true) :
    (isAborted (step s) = false →
      (runningOf (step s) = false ↔
        fetched s >>> 12 = 15 ∧ fetched s &&& 0xFF = 0x25))
    ∧ (isAborted (step s) = true ↔ (fetched s >>> 12 = 8 ∨ fetched s >>> 12 = 13))
    ∧ (isAborted (step s) = true → runningOf (step s) = true) := by
  obtain ⟨hm, hr⟩ := hwf
  have hi : fetched s < 65536 := mem_read_fst_lt _ _ hm
  have hop : fetched s >>> 12 < 16 := by
    rw [Nat.shiftRight_eq_div_pow]
    omega
  have hstep : step s = execInstr
      (setReg (mem_read s (s.reg R_PC)).2 R_PC
        (((mem_read s (s.reg R_PC)).2.reg R_PC + 1) % 65536)) (fetched s) := rfl
  set i := fetched s with hidef
  set s1 := setReg (mem_read s (s.reg R_PC)).2 R_PC
      (((mem_read s (s.reg R_PC)).2.reg R_PC + 1) % 65536) with hs1
  have hs1run : s1.running = true := by
    rw [hs1]
    simp [hrun]
  have hcases : i >>> 12 = 0 ∨ i >>> 12 = 1 ∨ i >>> 12 = 2 ∨ i >>> 12 = 3
      ∨ i >>> 12 = 4 ∨ i >>> 12 = 5 ∨ i >>> 12 = 6 ∨ i >>> 12 = 7 ∨ i >>> 12 = 8
      ∨ i >>> 12 = 9 ∨ i >>> 12 = 10 ∨ i >>> 12 = 11 ∨ i >>> 12 = 12
      ∨ i >>> 12 = 13 ∨ i >>> 12 = 14 ∨ i >>> 12 = 15 := by omega
  rcases hcases with h | h | h | h | h | h | h | h | h | h | h | h | h | h | h | h <;>
    simp only [hstep, execInstr, h] <;>
    norm_num <;>
    simp [isAborted, runningOf, hs1run, h,
      execBR_running, execADD_running, execLD_running, execST_running,
      execJSR_running, execAND_running, execLDR_running, execSTR_running,
      execNOT_running, execLDI_running, execSTI_running, execJMP_running,
      execLEA_running, execTRAP_running]


/-- Witness for C7: a concrete machine about to execute HALT. -/
theorem c7_halt_witness :
    (isAborted (step c7machine) = false →
      (runningOf (step c7machine) = false ↔
        fetched c7machine >>> 12 = 15 ∧ fetched c7machine &&& 0xFF = 0x25))
    ∧ (isAborted (step c7machine) = true ↔
        (fetched c7machine >>> 12 = 8 ∨ fetched c7machine >>> 12 = 13))
    ∧ (isAborted (step c7machine) = true → runningOf (step c7machine) = true) :=
  c7_halt c7machine
    ⟨fun a => lookupD_lt [(0x3000, 0xF025)] (by decide) a,
     fun r => lookupD_lt [(8, 0x3000)] (by decide) r⟩ rfl


lemma execInstr_op0 (m : Machine) (i : Nat) (h : i >>> 12 = 0) :
    execInstr m i = .ok (execBR m i) := by
  unfold execInstr
  simp [h]

lemma execInstr_op1 (m : Machine) (i : Nat) (h : i >>> 12 = 1) :
    execInstr m i = .ok (execADD m i) := by
  unfold execInstr
  simp [h]

lemma execInstr_op2 (m : Machine) (i : Nat) (h : i >>> 12 = 2) :
    execInstr m i = .ok (execLD m i) := by
  unfold execInstr
  simp [h]

lemma execInstr_op3 (m : Machine) (i : Nat) (h : i >>> 12 = 3) :
    execInstr m i = .ok (execST m i) := by
  unfold execInstr
  simp [h]

lemma execInstr_op4 (m : Machine) (i : Nat) (h : i >>> 12 = 4) :
    execInstr m i = .ok (execJSR m i) := by
  unfold execInstr
  simp [h]

lemma execInstr_op5 (m : Machine) (i : Nat) (h : i >>> 12 = 5) :
    execInstr m i = .ok (execAND m i) := by
  unfold execInstr
  simp [h]

lemma execInstr_op6 (m : Machine) (i : Nat) (h : i >>> 12 = 6) :
    execInstr m i = .ok (execLDR m i) := by
  unfold execInstr
  simp [h]

lemma execInstr_op7 (m : Machine) (i : Nat) (h : i >>> 12 = 7) :
    execInstr m i = .ok (execSTR m i) := by
  unfold execInstr
  simp [h]

lemma execInstr_op8 (m : Machine) (i : Nat) (h : i >>> 12 = 8) :
    execInstr m i = .aborted m := by
  unfold execInstr
  simp [h]

lemma execInstr_op9 (m : Machine) (i : Nat) (h : i >>> 12 = 9) :
    execInstr m i = .ok (execNOT m i) := by
  unfold execInstr
  simp [h]

lemma execInstr_op10 (m : Machine) (i : Nat) (h : i >>> 12 = 10) :
    execInstr m i = .ok (execLDI m i) := by
  unfold execInstr
  simp [h]

lemma execInstr_op11 (m : Machine) (i : Nat) (h : i >>> 12 = 11) :
    execInstr m i = .ok (execSTI m i) := by
  unfold execInstr
  simp [h]

lemma execInstr_op12 (m : Machine) (i : Nat) (h : i >>> 12 = 12) :
    execInstr m i = .ok (execJMP m i) := by
  unfold execInstr
  simp [h]

lemma execInstr_op13 (m : Machine) (i : Nat) (h : i >>> 12 = 13) :
    execInstr m i = .aborted m := by
  unfold execInstr
  simp [h]

lemma execInstr_op14 (m : Machine) (i : Nat) (h : i >>> 12 = 14) :
    execInstr m i = .ok (execLEA m i) := by
  unfold execInstr
  simp [h]

lemma execInstr_op15 (m : Machine) (i : Nat) (h : i >>> 12 = 15) :
    execInstr m i = .ok (execTRAP m i) := by
  unfold execInstr
  simp [h]

lemma load_shape_reg (X : Machine) (r0 v : Nat) (h : r0 ≠ R_COND) :
    (update_flags (setReg X r0 v) r0).reg r0 = v := by
  simp [update_flags, setReg, updFn, h]

lemma trapGETC_reg7 (m : Machine) : (trapGETC m).reg 7 = m.reg 7 := by
  unfold trapGETC
  split <;> simp [update_flags, setReg, updFn, R_R7, R_COND, R_R0]

lemma trapIN_reg7 (m : Machine) : (trapIN m).reg 7 = m.reg 7 := by
  unfold trapIN
  split <;> simp [update_flags, setReg, updFn, R_R7, R_COND, R_R0]

lemma execTRAP_reg7 (m : Machine) (i : Nat) :
    (execTRAP m i).reg R_R7 = m.reg R_PC := by
  unfold execTRAP
  simp only []
  split_ifs <;>
    simp [trapGETC_reg7, trapIN_reg7, trapOUT, trapPUTS, trapPUTSP, trapHALT,
      setReg, updFn, R_R7, R_PC, R_COND, R_R0]

lemma execLD_reg_dr (m : Machine) (i a : Nat)
    (ha : (m.reg R_PC + sign_extend (i &&& 0x1FF) 9) % 65536 = a)
    (hakb : a ≠ MR_KBSR) :
    (execLD m i).reg (drOf i) = m.memory a := by
  unfold execLD
  simp only []
  rw [ha, load_shape_reg _ _ _ (drOf_ne_cond i)]
  exact (mem_read_of_ne m a hakb).1

lemma execLEA_reg_dr (m : Machine) (i a : Nat)
    (ha : (m.reg R_PC + sign_extend (i &&& 0x1FF) 9) % 65536 = a)
    (hakb : a ≠ MR_KBSR) :
    (execLEA m i).reg (drOf i) = m.memory a := by
  unfold execLEA
  simp only []
  rw [ha, load_shape_reg _ _ _ (drOf_ne_cond i)]
  exact (mem_read_of_ne m a hakb).1

lemma execLDI_reg_dr (m : Machine) (i a : Nat)
    (ha : (m.reg R_PC + sign_extend (i &&& 0x1FF) 9) % 65536 = a)
    (hakb : a ≠ MR_KBSR) (hbkb : m.memory a ≠ MR_KBSR) :
    (execLDI m i).reg (drOf i) = m.memory (m.memory a) := by
  unfold execLDI
  simp only []
  rw [ha, load_shape_reg _ _ _ (drOf_ne_cond i)]
  obtain ⟨hv2, hm2, _, _⟩ := mem_read_of_ne m a hakb
  rw [hv2]
  obtain ⟨hv3, _, _, _⟩ := mem_read_of_ne (mem_read m a).2 (m.memory a) hbkb
  rw [hv3, hm2]

lemma execST_mem (m : Machine) (i a : Nat)
    (ha : (m.reg R_PC + sign_extend (i &&& 0x1FF) 9) % 65536 = a) :
    (execST m i).memory a = m.reg (drOf i) := by
  unfold execST
  simp only []
  rw [ha]
  simp [mem_write, updFn]

lemma execSTI_mem (m : Machine) (i a : Nat)
    (ha : (m.reg R_PC + sign_extend (i &&& 0x1FF) 9) % 65536 = a)
    (hakb : a ≠ MR_KBSR) :
    (execSTI m i).memory (m.memory a) = m.reg (drOf i) := by
  unfold execSTI
  simp only []
  rw [ha]
  obtain ⟨hv2, _, _, _⟩ := mem_read_of_ne m a hakb
  rw [hv2]
  simp [mem_write, updFn]

lemma execBR_pc (m : Machine) (i : Nat)
    (htaken : (i >>> 9) &&& m.reg R_COND ≠ 0) :
    (execBR m i).reg R_PC = (m.reg R_PC + sign_extend (i &&& 0x1FF) 9) % 65536 := by
  unfold execBR
  simp only []
  rw [if_pos htaken]
  simp [setReg, updFn]

lemma execJSR_r7 (m : Machine) (i : Nat) : (execJSR m i).reg R_R7 = m.reg R_PC := by
  unfold execJSR
  simp only []
  split <;> simp [setReg, updFn, R_R7, R_PC]

lemma execJSR_pc_long (m : Machine) (i : Nat) (hflag : (i >>> 11) &&& 1 = 1) :
    (execJSR m i).reg R_PC = (m.reg R_PC + sign_extend (i &&& 0x7FF) 11) % 65536 := by
  unfold execJSR
  simp only []
  rw [if_pos hflag]
  simp [setReg, updFn, R_R7, R_PC]

/-- C8: every PC-relative effective address (BR, LD, LDI, LEA, ST, STI and
long-offset JSR) and every link address stored in R7 (JSR, TRAP) is
computed from the PC already advanced past the current instruction: the
fetch `mem_read(reg[R_PC]++)` increments PC before decode, so each address
is `(old PC + 1 + sign_extend(offset)) mod 2^16` and each link is
`(old PC + 1) mod 2^16`.  (Effective addresses are kept away from the MMIO
cell 0xFE00 so that plain-storage reads describe the loaded values.) -/
theorem c8_pc_advance (s : Machine) (hkb : s.reg R_PC ≠ MR_KBSR) :
    (fetched s >>> 12 = 0 → (fetched s >>> 9) &&& s.reg R_COND ≠ 0 →
      regOf (step s) R_PC
        = (s.reg R_PC + 1 + sign_extend (fetched s &&& 0x1FF) 9) % 65536)
    ∧ (fetched s >>> 12 = 2 →
        ∀ a, a = (s.reg R_PC + 1 + sign_extend (fetched s &&& 0x1FF) 9) % 65536 →
        a ≠ MR_KBSR →
        regOf (step s) (drOf (fetched s)) = s.memory a)
    ∧ (fetched s >>> 12 = 10 →
        ∀ a, a = (s.reg R_PC + 1 + sign_extend (fetched s &&& 0x1FF) 9) % 65536 →
        a ≠ MR_KBSR → s.memory a ≠ MR_KBSR →
        regOf (step s) (drOf (fetched s)) = s.memory (s.memory a))
    ∧ (fetched s >>> 12 = 14 →
        ∀ a, a = (s.reg R_PC + 1 + sign_extend (fetched s &&& 0x1FF) 9) % 65536 →
        a ≠ MR_KBSR →
        regOf (step s) (drOf (fetched s)) = s.memory a)
    ∧ (fetched s >>> 12 = 3 →
        ∀ a, a = (s.reg R_PC + 1 + sign_extend (fetched s &&& 0x1FF) 9) % 65536 →
        memOf (step s) a = s.reg (drOf (fetched s)))
    ∧ (fetched s >>> 12 = 11 →
        ∀ a, a = (s.reg R_PC + 1 + sign_extend (fetched s &&& 0x1FF) 9) % 65536 →
        a ≠ MR_KBSR →
        memOf (step s) (s.memory a) = s.reg (drOf (fetched s)))
    ∧ (fetched s >>> 12 = 4 →
        regOf (step s) R_R7 = (s.reg R_PC + 1) % 65536
        ∧ ((fetched s >>> 11) &&& 1 = 1 →
          regOf (step s) R_PC
            = (s.reg R_PC + 1 + sign_extend (fetched s &&& 0x7FF) 11) % 65536))
    ∧ (fetched s >>> 12 = 15 →
        regOf (step s) R_R7 = (s.reg R_PC + 1) % 65536) := by
  obtain ⟨hv1, hm1, hin1, hacc1⟩ := mem_read_of_ne s (s.reg R_PC) hkb
  have hstep : step s = execInstr
      (setReg (mem_read s (s.reg R_PC)).2 R_PC ((s.reg R_PC + 1) % 65536))
      (fetched s) := by
    simp only [step, fetched, mem_read_reg]
  set s1 := setReg (mem_read s (s.reg R_PC)).2 R_PC ((s.reg R_PC + 1) % 65536)
    with hs1def
  set i := fetched s with hidef
  have h9 : drOf i ≠ R_COND := drOf_ne_cond i
  have h78 : drOf i ≠ R_PC := by
    have := drOf_lt i
    simp only [R_PC]
    omega
  have h98 : R_COND ≠ R_PC := by decide
  have hs1pc : s1.reg R_PC = (s.reg R_PC + 1) % 65536 := by
    rw [hs1def]
    simp [setReg, updFn]
  have hs1mem : s1.memory = s.memory := by
    rw [hs1def]
    simp [setReg, hm1]
  have hs1reg : ∀ r, r ≠ R_PC → s1.reg r = s.reg r := by
    intro r hr
    rw [hs1def]
    simp [setReg, updFn, hr]
  refine ⟨?_, ?_, ?_, ?_, ?_, ?_, ?_, ?_⟩
  · -- BR taken
    intro hop htaken
    rw [hstep, execInstr_op0 _ _ hop]
    simp only [regOf]
    rw [execBR_pc s1 i (by rw [hs1reg R_COND h98]; exact htaken), hs1pc,
      Nat.mod_add_mod]
  · -- LD
    intro hop a ha hakb
    rw [hstep, execInstr_op2 _ _ hop]
    simp only [regOf]
    rw [execLD_reg_dr s1 i a (by rw [hs1pc, Nat.mod_add_mod]; exact ha.symm) hakb,
      hs1mem]
  · -- LDI
    intro hop a ha hakb hbkb
    rw [hstep, execInstr_op10 _ _ hop]
    simp only [regOf]
    rw [execLDI_reg_dr s1 i a (by rw [hs1pc, Nat.mod_add_mod]; exact ha.symm) hakb
      (by rw [hs1mem]; exact hbkb), hs1mem]
  · -- LEA
    intro hop a ha hakb
    rw [hstep, execInstr_op14 _ _ hop]
    simp only [regOf]
    rw [execLEA_reg_dr s1 i a (by rw [hs1pc, Nat.mod_add_mod]; exact ha.symm) hakb,
      hs1mem]
  · -- ST
    intro hop a ha
    rw [hstep, execInstr_op3 _ _ hop]
    simp only [memOf]
    rw [execST_mem s1 i a (by rw [hs1pc, Nat.mod_add_mod]; exact ha.symm),
      hs1reg (drOf i) h78]
  · -- STI
    intro hop a ha hakb
    rw [hstep, execInstr_op11 _ _ hop]
    simp only [memOf]
    have hkey := execSTI_mem s1 i a (by rw [hs1pc, Nat.mod_add_mod]; exact ha.symm) hakb
    rw [hs1mem, hs1reg (drOf i) h78] at hkey
    exact hkey
  · -- JSR
    intro hop
    rw [hstep, execInstr_op4 _ _ hop]
    simp only [regOf]
    refine ⟨?_, ?_⟩
    · rw [execJSR_r7, hs1pc]
    · intro hflag
      rw [execJSR_pc_long s1 i hflag, hs1pc, Nat.mod_add_mod]
  · -- TRAP link
    intro hop
    rw [hstep, execInstr_op15 _ _ hop]
    simp only [regOf]
    rw [execTRAP_reg7, hs1pc]


/-- Witness for C8 at a concrete machine holding an LD instruction. -/
theorem c8_pc_advance_witness :
    (fetched c8machine >>> 12 = 0 → (fetched c8machine >>> 9) &&& c8machine.reg R_COND ≠ 0 →
      regOf (step c8machine) R_PC
        = (c8machine.reg R_PC + 1 + sign_extend (fetched c8machine &&& 0x1FF) 9) % 65536)
    ∧ (fetched c8machine >>> 12 = 2 →
        ∀ a, a = (c8machine.reg R_PC + 1 + sign_extend (fetched c8machine &&& 0x1FF) 9) % 65536 →
        a ≠ MR_KBSR →
        regOf (step c8machine) (drOf (fetched c8machine)) = c8machine.memory a)
    ∧ (fetched c8machine >>> 12 = 10 →
        ∀ a, a = (c8machine.reg R_PC + 1 + sign_extend (fetched c8machine &&& 0x1FF) 9) % 65536 →
        a ≠ MR_KBSR → c8machine.memory a ≠ MR_KBSR →
        regOf (step c8machine) (drOf (fetched c8machine)) = c8machine.memory (c8machine.memory a))
    ∧ (fetched c8machine >>> 12 = 14 →
        ∀ a, a = (c8machine.reg R_PC + 1 + sign_extend (fetched c8machine &&& 0x1FF) 9) % 65536 →
        a ≠ MR_KBSR →
        regOf (step c8machine) (drOf (fetched c8machine)) = c8machine.memory a)
    ∧ (fetched c8machine >>> 12 = 3 →
        ∀ a, a = (c8machine.reg R_PC + 1 + sign_extend (fetched c8machine &&& 0x1FF) 9) % 65536 →
        memOf (step c8machine) a = c8machine.reg (drOf (fetched c8machine)))
    ∧ (fetched c8machine >>> 12 = 11 →
        ∀ a, a = (c8machine.reg R_PC + 1 + sign_extend (fetched c8machine &&& 0x1FF) 9) % 65536 →
        a ≠ MR_KBSR →
        memOf (step c8machine) (c8machine.memory a) = c8machine.reg (drOf (fetched c8machine)))
    ∧ (fetched c8machine >>> 12 = 4 →
        regOf (step c8machine) R_R7 = (c8machine.reg R_PC + 1) % 65536
        ∧ ((fetched c8machine >>> 11) &&& 1 = 1 →
          regOf (step c8machine) R_PC
            = (c8machine.reg R_PC + 1 + sign_extend (fetched c8machine &&& 0x7FF) 11) % 65536))
    ∧ (fetched c8machine >>> 12 = 15 →
        regOf (step c8machine) R_R7 = (c8machine.reg R_PC + 1) % 65536) :=
  c8_pc_advance c8machine (by decide)


lemma execADD_acc (m : Machine) (i : Nat) : (execADD m i).acc = m.acc := by
  unfold execADD
  simp only []
  split <;> rfl

lemma execAND_acc (m : Machine) (i : Nat) : (execAND m i).acc = m.acc := by
  unfold execAND
  simp only []
  split <;> rfl

lemma execNOT_acc (m : Machine) (i : Nat) : (execNOT m i).acc = m.acc := rfl

lemma execBR_acc (m : Machine) (i : Nat) : (execBR m i).acc = m.acc := by
  unfold execBR
  simp only []
  split <;> rfl

lemma execJMP_acc (m : Machine) (i : Nat) : (execJMP m i).acc = m.acc := rfl

lemma execJSR_acc (m : Machine) (i : Nat) : (execJSR m i).acc = m.acc := by
  unfold execJSR
  simp only []
  split <;> rfl

lemma execLD_acc (m : Machine) (i : Nat) :
    ∀ x ∈ (execLD m i).acc, x ∈ m.acc ∨ x < 65536 := by
  intro x hx
  simp only [execLD, update_flags_acc, setReg_acc] at hx
  rcases mem_read_acc_mem m _ x hx with h | h | h
  · exact Or.inl h
  · right
    rw [h]
    exact Nat.mod_lt _ (by norm_num)
  · exact Or.inr h

lemma execLDR_acc (m : Machine) (i : Nat) :
    ∀ x ∈ (execLDR m i).acc, x ∈ m.acc ∨ x < 65536 := by
  intro x hx
  simp only [execLDR, update_flags_acc, setReg_acc] at hx
  rcases mem_read_acc_mem m _ x hx with h | h | h
  · exact Or.inl h
  · right
    rw [h]
    exact Nat.mod_lt _ (by norm_num)
  · exact Or.inr h

lemma execLEA_acc (m : Machine) (i : Nat) :
    ∀ x ∈ (execLEA m i).acc, x ∈ m.acc ∨ x < 65536 := by
  intro x hx
  simp only [execLEA, update_flags_acc, setReg_acc] at hx
  rcases mem_read_acc_mem m _ x hx with h | h | h
  · exact Or.inl h
  · right
    rw [h]
    exact Nat.mod_lt _ (by norm_num)
  · exact Or.inr h

lemma execLDI_acc (m : Machine) (i : Nat) (hm : ∀ x, m.memory x < 65536) :
    ∀ x ∈ (execLDI m i).acc, x ∈ m.acc ∨ x < 65536 := by
  intro x hx
  simp only [execLDI, update_flags_acc, setReg_acc] at hx
  rcases mem_read_acc_mem _ _ x hx with h | h | h
  · rcases mem_read_acc_mem m _ x h with h2 | h2 | h2
    · exact Or.inl h2
    · right
      rw [h2]
      exact Nat.mod_lt _ (by norm_num)
    · exact Or.inr h2
  · right
    rw [h]
    exact mem_read_fst_lt _ _ hm
  · exact Or.inr h

lemma execST_acc (m : Machine) (i : Nat) :
    ∀ x ∈ (execST m i).acc, x ∈ m.acc ∨ x < 65536 := by
  intro x hx
  simp only [execST, mem_write_acc, List.mem_append, List.mem_singleton] at hx
  rcases hx with h | h
  · exact Or.inl h
  · right
    rw [h]
    exact Nat.mod_lt _ (by norm_num)

lemma execSTR_acc (m : Machine) (i : Nat) :
    ∀ x ∈ (execSTR m i).acc, x ∈ m.acc ∨ x < 65536 := by
  intro x hx
  simp only [execSTR, mem_write_acc, List.mem_append, List.mem_singleton] at hx
  rcases hx with h | h
  · exact Or.inl h
  · right
    rw [h]
    exact Nat.mod_lt _ (by norm_num)

lemma execSTI_acc (m : Machine) (i : Nat) (hm : ∀ x, m.memory x < 65536) :
    ∀ x ∈ (execSTI m i).acc, x ∈ m.acc ∨ x < 65536 := by
  intro x hx
  simp only [execSTI, mem_write_acc, List.mem_append, List.mem_singleton] at hx
  rcases hx with h | h
  · rcases mem_read_acc_mem m _ x h with h2 | h2 | h2
    · exact Or.inl h2
    · right
      rw [h2]
      exact Nat.mod_lt _ (by norm_num)
    · exact Or.inr h2
  · right
    rw [h]
    exact mem_read_fst_lt _ _ hm

lemma trapGETC_acc (m : Machine) : (trapGETC m).acc = m.acc := by
  unfold trapGETC
  split <;> rfl

lemma trapIN_acc (m : Machine) : (trapIN m).acc = m.acc := by
  unfold trapIN
  split <;> rfl

lemma execTRAP_acc (m : Machine) (i : Nat)
    (hz : (i &&& 0xFF = 0x22 ∨ i &&& 0xFF = 0x24) →
      ∃ z, m.reg R_R0 ≤ z ∧ z < 65536 ∧ m.memory z = 0) :
    ∀ x ∈ (execTRAP m i).acc, x ∈ m.acc ∨ x < 65536 := by
  have hm1acc : (setReg m R_R7 (m.reg R_PC)).acc = m.acc := rfl
  have hm1mem : (setReg m R_R7 (m.reg R_PC)).memory = m.memory := rfl
  have hm1r0 : (setReg m R_R7 (m.reg R_PC)).reg R_R0 = m.reg R_R0 := by
    simp [setReg, updFn, R_R0, R_R7]
  intro x hx
  unfold execTRAP at hx
  simp only [] at hx
  split_ifs at hx with h20 h21 h22 h23 h24 h25
  · rw [trapGETC_acc, hm1acc] at hx
    exact Or.inl hx
  · simp only [trapOUT, hm1acc] at hx
    exact Or.inl hx
  · unfold trapPUTS at hx
    simp only [hm1acc, hm1mem, hm1r0, List.mem_append] at hx
    rcases hx with hx | hx
    · exact Or.inl hx
    · obtain ⟨z, h1, h2, h3⟩ := hz (Or.inl h22)
      right
      have hle := puts_loop_acc_le m.memory (MEMORY_MAX - m.reg R_R0) (m.reg R_R0) z
        h1 (by unfold MEMORY_MAX; omega) h3 x hx
      omega
  · rw [trapIN_acc, hm1acc] at hx
    exact Or.inl hx
  · unfold trapPUTSP at hx
    simp only [hm1acc, hm1mem, hm1r0, List.mem_append] at hx
    rcases hx with hx | hx
    · exact Or.inl hx
    · obtain ⟨z, h1, h2, h3⟩ := hz (Or.inr h24)
      right
      have hle := putsp_loop_acc_le m.memory (MEMORY_MAX - m.reg R_R0) (m.reg R_R0) z
        h1 (by unfold MEMORY_MAX; omega) h3 x hx
      omega
  · simp only [trapHALT, hm1acc] at hx
    exact Or.inl hx
  · rw [hm1acc] at hx
    exact Or.inl hx

/-- C9 (amended): every register index the executor decodes from an
instruction word is in 0..7; and for a well-formed machine, every index
used on the memory array during one instruction cycle is below 65536 —
provided that, when the instruction is TRAP PUTS (0x22) or PUTSP (0x24),
some word at or after address R0 is zero.  (Without that terminator the
PUTS/PUTSP pointer walk runs past the end of the array, see the
counterexample.) -/
theorem c9_bounds (s : Machine) (hwf : Wf s)
    (hterm : fetched s >>> 12 = 15 →
      (fetched s &&& 0xFF = 0x22 ∨ fetched s &&& 0xFF = 0x24) →
      ∃ z, s.reg R_R0 ≤ z ∧ z < 65536
        ∧ (mem_read s (s.reg R_PC)).2.memory z = 0) :
    (drOf (fetched s) < 8 ∧ sr1Of (fetched s) < 8 ∧ sr2Of (fetched s) < 8)
    ∧ (∀ x ∈ accOf (step s), x ∈ s.acc ∨ x < 65536) := by
  obtain ⟨hm, hr⟩ := hwf
  refine ⟨⟨drOf_lt _, sr1Of_lt _, sr2Of_lt _⟩, ?_⟩
  have hi : fetched s < 65536 := mem_read_fst_lt _ _ hm
  have hop : fetched s >>> 12 < 16 := by
    rw [Nat.shiftRight_eq_div_pow]
    omega
  have hstep : step s = execInstr
      (setReg (mem_read s (s.reg R_PC)).2 R_PC ((s.reg R_PC + 1) % 65536))
      (fetched s) := by
    simp only [step, fetched, mem_read_reg]
  set s1 := setReg (mem_read s (s.reg R_PC)).2 R_PC ((s.reg R_PC + 1) % 65536)
    with hs1def
  set i := fetched s with hidef
  have hs1acc : ∀ x ∈ s1.acc, x ∈ s.acc ∨ x < 65536 := by
    intro x hx
    rw [hs1def] at hx
    simp only [setReg_acc] at hx
    rcases mem_read_acc_mem s _ x hx with h | h | h
    · exact Or.inl h
    · right
      rw [h]
      exact hr R_PC
    · exact Or.inr h
  have hs1m : ∀ x, s1.memory x < 65536 := fun x => mem_read_memory_lt s _ hm x
  have hs1r0 : s1.reg R_R0 = s.reg R_R0 := by
    rw [hs1def]
    simp [setReg, updFn, R_R0, R_PC]
  have hcases : i >>> 12 = 0 ∨ i >>> 12 = 1 ∨ i >>> 12 = 2 ∨ i >>> 12 = 3
      ∨ i >>> 12 = 4 ∨ i >>> 12 = 5 ∨ i >>> 12 = 6 ∨ i >>> 12 = 7 ∨ i >>> 12 = 8
      ∨ i >>> 12 = 9 ∨ i >>> 12 = 10 ∨ i >>> 12 = 11 ∨ i >>> 12 = 12
      ∨ i >>> 12 = 13 ∨ i >>> 12 = 14 ∨ i >>> 12 = 15 := by omega
  rcases hcases with h | h | h | h | h | h | h | h | h | h | h | h | h | h | h | h
  · rw [hstep, execInstr_op0 _ _ h]
    simp only [accOf]
    intro x hx
    rw [execBR_acc] at hx
    exact hs1acc x hx
  · rw [hstep, execInstr_op1 _ _ h]
    simp only [accOf]
    intro x hx
    rw [execADD_acc] at hx
    exact hs1acc x hx
  · rw [hstep, execInstr_op2 _ _ h]
    simp only [accOf]
    intro x hx
    rcases execLD_acc s1 i x hx with hh | hh
    · exact hs1acc x hh
    · exact Or.inr hh
  · rw [hstep, execInstr_op3 _ _ h]
    simp only [accOf]
    intro x hx
    rcases execST_acc s1 i x hx with hh | hh
    · exact hs1acc x hh
    · exact Or.inr hh
  · rw [hstep, execInstr_op4 _ _ h]
    simp only [accOf]
    intro x hx
    rw [execJSR_acc] at hx
    exact hs1acc x hx
  · rw [hstep, execInstr_op5 _ _ h]
    simp only [accOf]
    intro x hx
    rw [execAND_acc] at hx
    exact hs1acc x hx
  · rw [hstep, execInstr_op6 _ _ h]
    simp only [accOf]
    intro x hx
    rcases execLDR_acc s1 i x hx with hh | hh
    · exact hs1acc x hh
    · exact Or.inr hh
  · rw [hstep, execInstr_op7 _ _ h]
    simp only [accOf]
    intro x hx
    rcases execSTR_acc s1 i x hx with hh | hh
    · exact hs1acc x hh
    · exact Or.inr hh
  · rw [hstep, execInstr_op8 _ _ h]
    simp only [accOf]
    intro x hx
    exact hs1acc x hx
  · rw [hstep, execInstr_op9 _ _ h]
    simp only [accOf]
    intro x hx
    rw [execNOT_acc] at hx
    exact hs1acc x hx
  · rw [hstep, execInstr_op10 _ _ h]
    simp only [accOf]
    intro x hx
    rcases execLDI_acc s1 i hs1m x hx with hh | hh
    · exact hs1acc x hh
    · exact Or.inr hh
  · rw [hstep, execInstr_op11 _ _ h]
    simp only [accOf]
    intro x hx
    rcases execSTI_acc s1 i hs1m x hx with hh | hh
    · exact hs1acc x hh
    · exact Or.inr hh
  · rw [hstep, execInstr_op12 _ _ h]
    simp only [accOf]
    intro x hx
    rw [execJMP_acc] at hx
    exact hs1acc x hx
  · rw [hstep, execInstr_op13 _ _ h]
    simp only [accOf]
    intro x hx
    exact hs1acc x hx
  · rw [hstep, execInstr_op14 _ _ h]
    simp only [accOf]
    intro x hx
    rcases execLEA_acc s1 i x hx with hh | hh
    · exact hs1acc x hh
    · exact Or.inr hh
  · rw [hstep, execInstr_op15 _ _ h]
    simp only [accOf]
    intro x hx
    have hz : (i &&& 0xFF = 0x22 ∨ i &&& 0xFF = 0x24) →
        ∃ z, s1.reg R_R0 ≤ z ∧ z < 65536 ∧ s1.memory z = 0 := by
      intro hv
      obtain ⟨z, h1, h2, h3⟩ := hterm h hv
      exact ⟨z, by rw [hs1r0]; exact h1, h2, h3⟩
    rcases execTRAP_acc s1 i hz x hx with hh | hh
    · exact hs1acc x hh
    · exact Or.inr hh

/-- C9 counterexample: executing PUTS with R0 = 0xFFFF and
memory[0xFFFF] = 1 (no zero word at or after R0), the handler's pointer
walk uses index 65536 = MEMORY_MAX on the memory array — one past the last
valid index — so not every memory access stays within the 65536-word
array. -/
theorem c9_counterexample :
    c9machine.acc = []
    ∧ fetched c9machine >>> 12 = 15
    ∧ fetched c9machine &&& 0xFF = 0x22
    ∧ MEMORY_MAX ∈ accOf (step c9machine) := by decide

/-- Witness for C9 on a concrete PUTS instruction with a terminated
string. -/
theorem c9_bounds_witness :
    (drOf (fetched c9wmachine) < 8 ∧ sr1Of (fetched c9wmachine) < 8
      ∧ sr2Of (fetched c9wmachine) < 8)
    ∧ (∀ x ∈ accOf (step c9wmachine), x ∈ c9wmachine.acc ∨ x < 65536) :=
  c9_bounds c9wmachine
    ⟨fun a => lookupD_lt [(0x3000, 0xF022), (0xFFF0, 72), (0xFFF1, 105)] (by decide) a,
     fun r => lookupD_lt [(8, 0x3000), (0, 0xFFF0)] (by decide) r⟩
    (fun _ _ => ⟨0xFFF2, by decide, by decide, by decide⟩)

end LC3
